import Mathlib

/-!
# Verification of the CarnageReport stats resolution and ranking pipeline

Shallow embedding of the core logic of `populate_stats.py` (and, for the
forced-unranked classifier and the hash-drift rebuild check, of
`BACKUPpopulate_stats.py`).  Python strings are modelled as `String` /
`List Char`, Python `int` as `ℤ`, Python `float` factors from the XP
configuration as `ℚ` (the configuration values are small decimal fractions,
exactly representable), dictionaries as association lists or functions into
`Option`.  Fallible parsing (`int(...)` / `float(...)` inside `try`) is
modelled with `Option`; the enclosing `except` handlers become the `none`
branches.
-/

namespace CarnageReport

/-! ## Python string primitives -/

/-- Python `str.strip()` on a character list: drop whitespace at both ends. -/
def pyStrip (cs : List Char) : List Char :=
  ((cs.dropWhile Char.isWhitespace).reverse.dropWhile Char.isWhitespace).reverse

/-- `str.strip()` on `String`. -/
def pyStripStr (s : String) : String :=
  String.mk (pyStrip s.data)

/-- Python `str.lower()` (ASCII model of the casefold used by the code;
all names compared by the pipeline are ASCII apart from the hardcoded
Unicode escape table, which no claim touches). -/
def pyLower (s : String) : String :=
  String.mk (s.data.map Char.toLower)

/-- Does `needle` start `hay`? (helper for the substring test). -/
def startsWithList : List Char → List Char → Bool
  | [], _ => true
  | _ :: _, [] => false
  | a :: as, b :: bs => a = b && startsWithList as bs

/-- Substring containment on character lists (Python `needle in hay`). -/
def containsSub (needle : List Char) : List Char → Bool
  | [] => startsWithList needle []
  | c :: rest => startsWithList needle (c :: rest) || containsSub needle rest

/-- Python `needle in hay` on strings. -/
def pyIn (needle hay : String) : Bool :=
  containsSub needle.data hay.data

/-- Python `s.split(sep)` with an explicit one-character separator:
no collapsing of adjacent separators, empty string yields `[""]`. -/
def pySplit (sep : Char) : List Char → List (List Char)
  | [] => [[]]
  | c :: cs =>
    let r := pySplit sep cs
    if c = sep then [] :: r
    else
      match r with
      | h :: t => (c :: h) :: t
      | [] => [[c]]

/-- Numeric value of a digit list (all chars assumed `'0'`-`'9'`). -/
def digitsVal (cs : List Char) : Nat :=
  cs.foldl (fun a c => a * 10 + (c.toNat - 48)) 0

/-- Model of Python `int(s)` on a string: strip whitespace, optional sign,
then at least one digit and nothing else; `none` models the `ValueError`
that the callers catch.  (Python also accepts underscores between digits;
none of the pipeline's inputs use them.) -/
def parseIntChars (cs : List Char) : Option Int :=
  let cs := pyStrip cs
  match cs with
  | '-' :: rest =>
    if rest ≠ [] ∧ rest.all Char.isDigit then some (-(digitsVal rest : Int)) else none
  | '+' :: rest =>
    if rest ≠ [] ∧ rest.all Char.isDigit then some (digitsVal rest : Int) else none
  | _ =>
    if cs ≠ [] ∧ cs.all Char.isDigit then some (digitsVal cs : Int) else none

/-- Model of Python `float(s)` restricted to the decimal grammar
`[sign] digits [ . digits ]` actually occurring in score cells; `none`
models the `ValueError` that the callers catch. -/
def parseFloatChars (cs : List Char) : Option ℚ :=
  let cs := pyStrip cs
  let signBody : Int × List Char :=
    match cs with
    | '-' :: rest => (-1, rest)
    | '+' :: rest => (1, rest)
    | _ => (1, cs)
  let sign := signBody.1
  let body := signBody.2
  match pySplit '.' body with
  | [ip] =>
    if ip ≠ [] ∧ ip.all Char.isDigit then some ((sign * (digitsVal ip : Int) : Int) : ℚ) else none
  | [ip, fp] =>
    if (ip ≠ [] ∨ fp ≠ []) ∧ ip.all Char.isDigit ∧ fp.all Char.isDigit then
      some ((sign : ℚ) * ((digitsVal ip : ℚ) + (digitsVal fp : ℚ) / (10 ^ fp.length : ℚ)))
    else none
  | _ => none

/-- Python `int(f)` on a float value: truncation toward zero. -/
def pyTrunc (q : ℚ) : Int :=
  q.num.tdiv (q.den : Int)

/-! ## Leaf functions of populate_stats.py -/

/-- `time_to_seconds` (populate_stats.py:159-175).  Convert a time string
like `"1:53"` to total seconds.  The `None`/empty falsy guard returns 0;
every parse failure is caught by the bare `except` and returns 0.  A
two-part `"M:SS"` yields `M*60+SS`, a three-part `"H:MM:SS"` yields
`H*3600+MM*60+SS`; any other colon-bearing shape falls through to
`int(float(s))`, which raises on a colon, hence 0.  Colon-free input goes
through `int(float(s))`. -/
def time_to_seconds (time_str : List Char) : Int :=
  if time_str = [] then 0
  else
    let s := pyStrip time_str
    if ':' ∈ s then
      match pySplit ':' s with
      | [a, b] =>
        match parseIntChars a, parseIntChars b with
        | some m, some sec => m * 60 + sec
        | _, _ => 0
      | [a, b, c] =>
        match parseIntChars a, parseIntChars b, parseIntChars c with
        | some h, some m, some sec => h * 3600 + m * 60 + sec
        | _, _, _ => 0
      | _ => 0
    else
      match parseFloatChars s with
      | some q => pyTrunc q
      | none => 0

/-- `parse_duration_seconds` (populate_stats.py:645-663): `"M:SS"` or
`"H:MM:SS"` to seconds, 0 on empty or any parse failure. -/
def parse_duration_seconds (duration_str : List Char) : Int :=
  if duration_str = [] then 0
  else
    match pySplit ':' duration_str with
    | [m, s] =>
      match parseIntChars m, parseIntChars s with
      | some mv, some sv => mv * 60 + sv
      | _, _ => 0
    | [h, m, s] =>
      match parseIntChars h, parseIntChars m, parseIntChars s with
      | some hv, some mv, some sv => hv * 3600 + mv * 60 + sv
      | _, _, _ => 0
    | _ => 0

/-- `MIN_GAME_DURATION_SECONDS` (populate_stats.py:66). -/
def MIN_GAME_DURATION_SECONDS : Int := 120

/-- `DEDICATED_SERVER_NAMES` (populate_stats.py:69). -/
def DEDICATED_SERVER_NAMES : List String :=
  ["statsdedi", "dedi", "dedicated", "server"]

/-- `is_dedicated_server` (populate_stats.py:607-616). -/
def is_dedicated_server (player_name : String) : Bool :=
  let name_lower := pyLower (pyStripStr player_name)
  DEDICATED_SERVER_NAMES.contains name_lower ||
    (pyIn "dedi" name_lower && name_lower.length ≤ 15)

/-- `VALID_MLG_4V4_COMBOS` (populate_stats.py:57-63). -/
def VALID_MLG_4V4_COMBOS : List (String × List String) :=
  [("Midship", ["ctf", "slayer", "oddball", "assault"]),
   ("Beaver Creek", ["ctf", "slayer"]),
   ("Lockout", ["slayer", "oddball"]),
   ("Warlock", ["ctf", "slayer", "oddball"]),
   ("Sanctuary", ["ctf", "slayer"])]

/-- Association-list lookup modelling Python `dict.get`. -/
def lookupAssoc {α : Type} (l : List (String × α)) (k : String) : Option α :=
  (l.find? (fun e => e.1 == k)).map (fun e => e.2)

/-- `is_valid_mlg_combo` (populate_stats.py:619-643): map must be a key of
the combo table and the lowercased (alias-normalized) base gametype must
match one of its entries by bidirectional substring containment. -/
def is_valid_mlg_combo (map_name base_gametype : String) : Bool :=
  match lookupAssoc VALID_MLG_4V4_COMBOS map_name with
  | none => false
  | some valid_gametypes =>
    let base_gametype_lower := pyLower base_gametype
    let gametype_aliases : List (String × String) :=
      [("capture_the_flag", "ctf"), ("king_of_the_hill", "koth"), ("king", "koth")]
    let normalized_gametype :=
      (lookupAssoc gametype_aliases base_gametype_lower).getD base_gametype_lower
    valid_gametypes.any (fun vt =>
      pyIn vt normalized_gametype || pyIn normalized_gametype vt)

/-- Playlist name constants (populate_stats.py:81-84). -/
def PLAYLIST_MLG_4V4 : String := "MLG 4v4"

def PLAYLIST_TEAM_HARDCORE : String := "Team Hardcore"

def PLAYLIST_DOUBLE_TEAM : String := "Double Team"

def PLAYLIST_HEAD_TO_HEAD : String := "Head to Head"

/-- `PLAYLIST_ALIASES` (populate_stats.py:87-92). -/
def PLAYLIST_ALIASES : List (String × String) :=
  [("Ranked MLG 4v4", PLAYLIST_MLG_4V4),
   ("Ranked Team Hardcore", PLAYLIST_TEAM_HARDCORE),
   ("Ranked Double Team", PLAYLIST_DOUBLE_TEAM),
   ("Ranked Head to Head", PLAYLIST_HEAD_TO_HEAD)]

/-- `normalize_playlist_name` (populate_stats.py:153-157): `None` on a falsy
(empty) playlist, else the alias table with the input as fallback. -/
def normalize_playlist_name (playlist : String) : Option String :=
  if playlist = "" then none
  else some ((lookupAssoc PLAYLIST_ALIASES playlist).getD playlist)

/-- `calculate_rank` inner loop (populate_stats.py:1249-1254): scan ranks
`n, n-1, ..., 1` and return the first whose `[min,max]` band contains `xp`. -/
def calcRankAux (xp : Int) (t : Nat → Option (Int × Int)) : Nat → Nat
  | 0 => 1
  | r + 1 =>
    match t (r + 1) with
    | some (lo, hi) => if lo ≤ xp ∧ xp ≤ hi then r + 1 else calcRankAux xp t r
    | none => calcRankAux xp t r

/-- `calculate_rank` (populate_stats.py:1247-1255): highest rank in 50..1
whose threshold band contains `xp`; default rank 1.  The rank-thresholds
dict (keyed by the decimal string of the rank) is modelled as a partial
function from the rank number. -/
def calculate_rank (xp : Int) (rank_thresholds : Nat → Option (Int × Int)) : Nat :=
  calcRankAux xp rank_thresholds 50

/-! ## Data model: parsed games (parse_excel_file output shape) -/

/-- One row of the per-player `detailed_stats` list (Game Statistics sheet,
populate_stats.py:1375-1393); only the fields the verified claims touch. -/
structure DetailedStat where
  player : String
  ctf_scores : Int
deriving DecidableEq

/-- One player row from the Post Game Report (populate_stats.py:1340-1359);
`score` is the display string, `score_numeric` its `parse_score` decoding.
Only the fields the verified claims touch are kept. -/
structure PlayerRow where
  name : String
  team : String
  score : List Char
  score_numeric : Int
deriving DecidableEq

/-- The `details` dict of a parsed game (populate_stats.py:1326-1336);
only the fields the verified claims touch. -/
structure GameDetails where
  variantName : String
  gameType : String
deriving DecidableEq

/-- A parsed game (populate_stats.py:1424-1431) with its assigned playlist
and source file. -/
structure Game where
  details : GameDetails
  players : List PlayerRow
  detailed_stats : List DetailedStat
  playlist : Option String
  source_file : String
deriving DecidableEq

/-- The CTF detection shared by the outcome engine and the match-log builder
(populate_stats.py:1440-1442 and 2304-2306). -/
def is_ctf (g : Game) : Bool :=
  let variant_name := pyLower g.details.variantName
  let game_type := pyLower g.details.gameType
  pyIn "ctf" variant_name || pyIn "ctf" game_type ||
    pyIn "capture" game_type || pyIn "flag" variant_name

/-- The Oddball detection of the match-log builder (populate_stats.py:2307). -/
def is_oddball (g : Game) : Bool :=
  let variant_name := pyLower g.details.variantName
  let game_type := pyLower g.details.gameType
  pyIn "oddball" variant_name || pyIn "oddball" game_type || pyIn "ball" game_type

/-- Lookup in the `detailed = {s['player']: s for s in detailed_stats}`
dict (populate_stats.py:1447): a dict comprehension keeps the LAST entry
per key, and `.get(name, {}).get('ctf_scores', 0)` defaults to 0. -/
def detailedCtf (stats : List DetailedStat) (name : String) : Int :=
  match stats.reverse.find? (fun s => s.player == name) with
  | some s => s.ctf_scores
  | none => 0

/-- Names of the members of one team, in player-row order
(the `teams[team]['players']` list of populate_stats.py:1449-1460:
only rows whose `team` is `'Red'` or `'Blue'` enter the dict). -/
def teamMembers (g : Game) (team : String) : List String :=
  ((g.players.filter (fun p => p.team == team)).map (fun p => p.name))

/-- Per-player score contribution used by the outcome engine
(populate_stats.py:1455-1459): flag captures for CTF games with detailed
stats, the generic numeric score otherwise. -/
def enginePlayerScore (g : Game) (p : PlayerRow) : Int :=
  if is_ctf g ∧ g.detailed_stats ≠ [] then detailedCtf g.detailed_stats p.name
  else p.score_numeric

/-- One team's score as accumulated in `teams[team]['score']`
(populate_stats.py:1449-1460). -/
def engineTeamScore (g : Game) (team : String) : Int :=
  ((g.players.filter (fun p => p.team == team)).map (enginePlayerScore g)).sum

/-- `determine_winners_losers` (populate_stats.py:1435-1473).  The `teams`
dict has keys among `'Red'`/`'Blue'` only, so `len(teams) == 2` is
equivalent to both teams having at least one player row; the sort by
descending score followed by the equality check amounts to: equal scores
give `([], [])`, otherwise the strictly higher-scoring team's players are
the winners and the other team's the losers. -/
def determine_winners_losers (g : Game) : List String × List String :=
  let redP := teamMembers g "Red"
  let blueP := teamMembers g "Blue"
  if redP ≠ [] ∧ blueP ≠ [] then
    let red_score := engineTeamScore g "Red"
    let blue_score := engineTeamScore g "Blue"
    if red_score = blue_score then ([], [])
    else if red_score > blue_score then (redP, blueP)
    else (blueP, redP)
  else ([], [])

/-! ## XP configuration and the replay engine -/

/-- The XP configuration (xp_config.json as consumed by main,
populate_stats.py:1521-1526): base win/loss XP, per-rank damping factor
tables (keyed by the decimal string of the rank, here by the rank number)
and the rank-threshold table.  Factor table values are Python floats,
modelled as rationals. -/
structure XPConfig where
  game_win : Int
  game_loss : Int
  win_factors : Nat → Option ℚ
  loss_factors : Nat → Option ℚ
  rank_thresholds : Nat → Option (Int × Int)

/-- `get_loss_factor` (populate_stats.py:409-414). -/
def get_loss_factor (rank : Nat) (loss_factors : Nat → Option ℚ) : ℚ :=
  if rank ≥ 30 then 1 else (loss_factors rank).getD 1

/-- `get_win_factor` (populate_stats.py:416-421). -/
def get_win_factor (rank : Nat) (win_factors : Nat → Option ℚ) : ℚ :=
  if rank ≤ 40 then 1 else (win_factors rank).getD (1 / 2)

/-- One identity's state within one playlist: the parallel dicts
`player_playlist_xp/_rank/_highest_rank/_wins/_losses/_games` of
populate_stats.py:1733-1736 and 1866-1869, bundled per key. -/
structure PlaylistStanding where
  xp : Int
  rank : Nat
  highest_rank : Nat
  wins : Nat
  losses : Nat
  games : Nat
deriving DecidableEq

/-- The initial per-playlist entry created on first appearance
(populate_stats.py:2000-2006). -/
def initStanding : PlaylistStanding :=
  { xp := 0, rank := 1, highest_rank := 1, wins := 0, losses := 0, games := 0 }

/-- Replay state: raw in-game name → playlist → standing (`none` while the
pair has never been initialized). -/
def StandState : Type := String → String → Option PlaylistStanding

/-- The empty replay state (full-rebuild start). -/
def emptyState : StandState := fun _ _ => none

/-- The body of the per-player XP loop (populate_stats.py:1986-2074) for a
single player row of a ranked game: skip dedicated servers, initialize the
standing if needed, apply the win/loss/tie XP delta (loss clamped at 0),
recompute the rank from the new XP and update the highest rank.
The `player_name not in player_playlist_xp` guard of line 1996 never fires
in the embedding because the state is total over names (every non-dedicated
name is registered by the resolution phase before the loop). -/
def stepPlayer (cfg : XPConfig) (winners losers : List String) (playlist : String)
    (st : StandState) (p : PlayerRow) : StandState :=
  if is_dedicated_server p.name then st
  else
    let cur := (st p.name playlist).getD initStanding
    let rank_before := cur.rank
    let next :=
      if p.name ∈ winners then
        let win_factor := get_win_factor rank_before cfg.win_factors
        let xp_change := pyTrunc ((cfg.game_win : ℚ) * win_factor)
        { cur with wins := cur.wins + 1, games := cur.games + 1, xp := cur.xp + xp_change }
      else if p.name ∈ losers then
        let loss_factor := get_loss_factor rank_before cfg.loss_factors
        let xp_change := pyTrunc ((cfg.game_loss : ℚ) * loss_factor)
        let clamped := if cur.xp + xp_change < 0 then 0 else cur.xp + xp_change
        { cur with losses := cur.losses + 1, games := cur.games + 1, xp := clamped }
      else
        { cur with games := cur.games + 1 }
    let new_rank := calculate_rank next.xp cfg.rank_thresholds
    let entry := { next with rank := new_rank,
                             highest_rank := max next.highest_rank new_rank }
    fun n pl => if n = p.name ∧ pl = playlist then some entry else st n pl

/-- Process one ranked game of the XP loop (populate_stats.py:1967-1973):
games without a playlist are skipped; otherwise the winners/losers are
computed once and every player row is stepped in order. -/
def replayGame (cfg : XPConfig) (st : StandState) (g : Game) : StandState :=
  match g.playlist with
  | none => st
  | some playlist =>
    let wl := determine_winners_losers g
    g.players.foldl (stepPlayer cfg wl.1 wl.2 playlist) st

/-- Replay a chronological list of ranked games (the STEP 3b loop). -/
def replayGames (cfg : XPConfig) (games : List Game) (st : StandState) : StandState :=
  games.foldl (replayGame cfg) st

/-! ## Identity resolution and alias consolidation -/

/-- `resolve_player_to_discord` (populate_stats.py:1164-1180): the only
valid path is in-game name → MAC (identity file) → Discord ID. -/
def resolve_player_to_discord (player_name : String)
    (identity_name_to_mac : String → Option String)
    (mac_to_discord : String → Option String) : Option String :=
  let name_lower := pyLower (pyStripStr player_name)
  match identity_name_to_mac name_lower with
  | some mac => mac_to_discord mac
  | none => none

/-- The provisional identity created for an unresolved name
(populate_stats.py:1815): `str(abs(hash(player_name)) % 10**18)`.
CPython's string hash is modelled as an explicit pure function parameter
(one fixed interpreter seed). -/
def provisionalId (pyHash : String → Int) (player_name : String) : String :=
  toString ((pyHash player_name).natAbs % 10 ^ 18)

/-- The `player_to_id` construction (populate_stats.py:1768-1831): walk all
games and rows in order, skip dedicated servers and already-resolved names,
resolve via the game's identity file (abstracted as `resolveFor`), and fall
back to a hash-derived provisional identity.  (The rankstats side effects of
those lines do not feed back into this map.) -/
def buildPlayerToId (pyHash : String → Int) (resolveFor : Game → String → Option String)
    (games : List Game) : List (String × String) :=
  games.foldl
    (fun acc g =>
      g.players.foldl
        (fun acc p =>
          if is_dedicated_server p.name then acc
          else if (lookupAssoc acc p.name).isSome then acc
          else
            match resolveFor g p.name with
            | some user_id => acc ++ [(p.name, user_id)]
            | none => acc ++ [(p.name, provisionalId pyHash p.name)])
        acc)
    []

/-- The `all_player_names` set (populate_stats.py:1758, 1790), iterated in
first-appearance order (the embedding's canonical order for the Python
set). -/
def collectPlayerNames (games : List Game) : List String :=
  games.foldl
    (fun acc g =>
      g.players.foldl
        (fun acc p =>
          if is_dedicated_server p.name then acc
          else if acc.contains p.name then acc
          else acc ++ [p.name])
        acc)
    []

/-- `get_display_name` (populate_stats.py:2285-2289): in-game name →
discord display name when the player is resolved and has a non-empty
`discord_name` in rankstats, the in-game name otherwise.
`discordName uid = none` models `uid not in rankstats`. -/
def get_display_name (playerToId : String → Option String)
    (discordName : String → Option String) (player_name : String) : String :=
  match playerToId player_name with
  | some user_id =>
    match discordName user_id with
    | some d => if d = "" then player_name else d
    | none => player_name
  | none => player_name

/-- Append a name to its user's alias group, creating the group at the end
on first sight (the `user_id_to_names` dict of populate_stats.py:2080-2085,
with Python dict insertion-order semantics). -/
def upsertGroup (user_id n : String) : List (String × List String) → List (String × List String)
  | [] => [(user_id, [n])]
  | e :: rest =>
    if e.1 = user_id then (e.1, e.2 ++ [n]) :: rest
    else e :: upsertGroup user_id n rest

/-- `user_id_to_names` (populate_stats.py:2080-2085): group all player
names by their resolved user id. -/
def user_id_to_names (playerToId : String → String) (names : List String) :
    List (String × List String) :=
  names.foldl (fun acc n => upsertGroup (playerToId n) n acc) []

/-- Consolidate one playlist across one user's aliases (the inner loop of
populate_stats.py:2173-2197): XP/wins/losses/games are summed over the
aliases, the highest rank is the max (default 1), and the rank is
recomputed from the summed XP. -/
def consolidatePlaylist (cfg : XPConfig) (st : StandState) (aliases : List String)
    (playlist : String) : PlaylistStanding :=
  let xp := (aliases.map (fun n => ((st n playlist).getD initStanding).xp)).sum
  let wins := (aliases.map (fun n => ((st n playlist).getD initStanding).wins)).sum
  let losses := (aliases.map (fun n => ((st n playlist).getD initStanding).losses)).sum
  let games := (aliases.map (fun n => ((st n playlist).getD initStanding).games)).sum
  let highest := aliases.foldl
    (fun a n => max a ((st n playlist).getD initStanding).highest_rank) 1
  { xp := xp, rank := calculate_rank xp cfg.rank_thresholds,
    highest_rank := highest, wins := wins, losses := losses, games := games }

/-- STEP 4 consolidation (populate_stats.py:2087-2212): for every user id,
the per-playlist standing obtained by summing its aliases' accumulators. -/
def consolidate (cfg : XPConfig) (st : StandState) (playerToId : String → String)
    (names : List String) : List (String × (String → PlaylistStanding)) :=
  (user_id_to_names playerToId names).map
    (fun e => (e.1, fun playlist => consolidatePlaylist cfg st e.2 playlist))

/-- The full replay pipeline for one run (STEP 3 + STEP 4 of main,
populate_stats.py:1727-2223): build the name→identity map (with
hash-derived provisional identities), replay all ranked games from the
given start state, and consolidate per-alias accumulators into per-identity
per-playlist standings. -/
def runPipeline (cfg : XPConfig) (pyHash : String → Int)
    (resolveFor : Game → String → Option String) (rankedGames : List Game) :
    List (String × (String → PlaylistStanding)) :=
  let p2id := buildPlayerToId pyHash resolveFor rankedGames
  let lookupId : String → String := fun n => (lookupAssoc p2id n).getD ""
  let finalSt := replayGames cfg rankedGames emptyState
  consolidate cfg finalSt lookupId (collectPlayerNames rankedGames)

/-! ## The per-playlist match-log entry (STEP 5) -/

/-- One team's score as written into the per-playlist match log
(populate_stats.py:2309-2322): CTF flag captures when the CTF special case
fires, Oddball held-time seconds when the Oddball special case fires,
generic numeric score otherwise. -/
def logTeamScore (g : Game) (team : String) : Int :=
  if is_ctf g ∧ g.detailed_stats ≠ [] then
    ((g.players.filter (fun p => p.team == team)).map
      (fun p => detailedCtf g.detailed_stats p.name)).sum
  else if is_oddball g then
    ((g.players.filter (fun p => p.team == team)).map
      (fun p => time_to_seconds p.score)).sum
  else
    ((g.players.filter (fun p => p.team == team)).map (fun p => p.score_numeric)).sum

/-- The `winner` field of a match-log entry (populate_stats.py:2298-2325):
`'Red' if any(p in red_team for p in winners) else 'Blue' if winners else
'Tie'`, where `red_team` holds DISPLAY names and `winners` holds raw
in-game names. -/
def winner_team (g : Game) (display : String → String) : String :=
  let winners := (determine_winners_losers g).1
  let red_team := (g.players.filter (fun p => p.team == "Red")).map
    (fun p => display p.name)
  if winners.any (fun p => red_team.contains p) then "Red"
  else if winners ≠ [] then "Blue"
  else "Tie"

/-! ## Processed-state ledger and change detection -/

/-- `processed_state.json` (populate_stats.py:538-552 /
BACKUPpopulate_stats.py:736-751): file→playlist ledger plus the manual
override hashes.  `manual_unranked_hash` is read only by the backup
variant. -/
structure ProcessedState where
  games : List (String × Option String)
  manual_playlists_hash : String
  manual_unranked_hash : String

/-- `check_for_changes` (populate_stats.py:565-597).  Returns
`(needs_full_rebuild, new_files, changed_playlists)`.  Note that the source
computes `old_hash` and `new_hash` (lines 576-577) but never compares them:
`needs_full_rebuild` depends only on `changed_playlists`.  `hashFn` models
`get_manual_playlists_hash`. -/
def check_for_changes (hashFn : List (String × String) → String)
    (stats_files : List String) (manual_playlists : List (String × String))
    (processed_state : ProcessedState) :
    Bool × List String × List (String × Option String × Option String) :=
  let old_games := processed_state.games
  let _old_hash := processed_state.manual_playlists_hash
  let _new_hash := hashFn manual_playlists
  let scan := stats_files.foldl
    (fun (acc : List String × List (String × Option String × Option String)) filename =>
      let old_playlist := (lookupAssoc old_games filename).join
      let new_playlist := lookupAssoc manual_playlists filename
      if (lookupAssoc old_games filename).isNone then
        (acc.1 ++ [filename], acc.2)
      else if old_playlist ≠ new_playlist then
        (acc.1, acc.2 ++ [(filename, old_playlist, new_playlist)])
      else acc)
    ([], [])
  (!scan.2.isEmpty, scan.1, scan.2)

/-- `check_for_changes` of the backup variant
(BACKUPpopulate_stats.py:764-813): additionally compares the manual
playlists hash and the manual unranked hash against the snapshot, applies
the forced-unranked precedence when computing the new per-file assignment,
and escalates to a full rebuild when anything changed.  `hashP`/`hashU`
model the two `get_manual_hash` calls. -/
def check_for_changes_backup (hashP : List (String × String) → String)
    (hashU : List String → String)
    (stats_files : List String) (manual_playlists : List (String × String))
    (manual_unranked : List String) (processed_state : ProcessedState) :
    Bool × List String × List (String × Option String × Option String) :=
  let old_games := processed_state.games
  let playlists_changed := processed_state.manual_playlists_hash ≠ hashP manual_playlists
  let unranked_changed := processed_state.manual_unranked_hash ≠ hashU manual_unranked
  let scan := stats_files.foldl
    (fun (acc : List String × List (String × Option String × Option String)) filename =>
      let old_playlist := (lookupAssoc old_games filename).join
      let new_playlist :=
        if manual_unranked.contains filename then none
        else lookupAssoc manual_playlists filename
      if (lookupAssoc old_games filename).isNone then
        (acc.1 ++ [filename], acc.2)
      else if old_playlist ≠ new_playlist then
        (acc.1, acc.2 ++ [(filename, old_playlist, new_playlist)])
      else acc)
    ([], [])
  (!scan.2.isEmpty || decide playlists_changed || decide unranked_changed, scan.1, scan.2)

/-- The end-of-run ledger rebuild (populate_stats.py:2742-2757): every
processed game writes its computed playlist, except that outside a full
rebuild a previously-ranked file that the current run left unranked keeps
its old ledger value.  `all_games` carries `(source_file, playlist)` pairs;
`old_games` is the previous ledger as a lookup. -/
def ledgerEntry (old_games : String → Option String) (needs_full_rebuild : Bool)
    (e : String × Option String) : String × Option String :=
  match e.2, old_games e.1, needs_full_rebuild with
  | none, some old_playlist, false => (e.1, some old_playlist)
  | _, _, _ => e

/-- The ledger rebuild loop itself (populate_stats.py:2745-2757). -/
def buildNewGames (old_games : String → Option String)
    (all_games : List (String × Option String)) (needs_full_rebuild : Bool) :
    List (String × Option String) :=
  all_games.map (ledgerEntry old_games needs_full_rebuild)

/-! ## The backup structural playlist classifier -/

/-- The per-file facts `determine_playlist` reads from the Excel sheets
(BACKUPpopulate_stats.py:1141-1161, 1193-1228), gathered into a record:
duration string from Game Details, player count and team structure from the
Post Game Report, map/gametype and the two team scores from Game Details.
`hasDetails` models `len(game_details_df) > 0`. -/
structure GameFileInfo where
  filename : String
  duration : List Char
  playerCount : Nat
  isTeam : Bool
  mapName : String
  baseGametype : String
  hasDetails : Bool
  redScore : Int
  blueScore : Int

/-- `is_game_long_enough` (BACKUPpopulate_stats.py:893-896, identical in
populate_stats.py:677-680). -/
def is_game_long_enough (info : GameFileInfo) : Bool :=
  parse_duration_seconds info.duration ≥ MIN_GAME_DURATION_SECONDS

/-- The head-to-head duration reparse (BACKUPpopulate_stats.py:1204-1212):
`int(parts[0]) + int(parts[1]) / 60` in minutes, 0 on any failure. -/
def durationMins (duration : List Char) : ℚ :=
  match pySplit ':' duration with
  | [m, s] =>
    match parseIntChars m, parseIntChars s with
    | some mv, some sv => (mv : ℚ) + (sv : ℚ) / 60
    | _, _ => 0
  | _ => 0

/-- `determine_playlist` of the backup variant
(BACKUPpopulate_stats.py:1109-1237): manual forced-unranked first, then the
manual playlist override (alias-normalized), the two-minute duration gate,
the FFA rejection, and the structural criteria (MLG 4v4 combo, Double Team,
decisive Head to Head). -/
def determine_playlist_backup (info : GameFileInfo)
    (manual_playlists : List (String × String)) (manual_unranked : List String) :
    Option String :=
  if manual_unranked.contains info.filename then none
  else
    match lookupAssoc manual_playlists info.filename with
    | some playlist_value => normalize_playlist_name playlist_value
    | none =>
      if ¬ is_game_long_enough info then none
      else if info.playerCount ≥ 3 ∧ ¬ info.isTeam then none
      else if info.playerCount = 8 ∧ info.isTeam ∧
          is_valid_mlg_combo info.mapName info.baseGametype then
        some PLAYLIST_MLG_4V4
      else if info.playerCount = 4 ∧ info.isTeam then some PLAYLIST_DOUBLE_TEAM
      else if info.playerCount = 2 then
        if ¬ info.hasDetails then none
        else
          let max_score := max info.redScore info.blueScore
          let duration_mins := durationMins info.duration
          if max_score > 15 then none
          else if max_score = 15 ∨ duration_mins ≥ 14 then some PLAYLIST_HEAD_TO_HEAD
          else none
      else none

/-! ## Theorems -/

/-- C9: for every match file listed in the manual forced-unranked override
set, the backup classifier returns unranked (`none`), regardless of the
manual forced-playlist override, the duration gate, and all structural
criteria. -/
theorem c9_forced_unranked_precedence (info : GameFileInfo)
    (manual_playlists : List (String × String)) (manual_unranked : List String)
    (h : manual_unranked.contains info.filename = true) :
    determine_playlist_backup info manual_playlists manual_unranked = none := by
  unfold determine_playlist_backup
  rw [h]
  rfl

/-- C9 witness: a long, structurally valid MLG 4v4 game with a conflicting
manual ranked override is still classified unranked once its file is in the
forced-unranked set. -/
theorem c9_forced_unranked_precedence_witness :
    (["g1.xlsx"].contains "g1.xlsx" = true) ∧
      determine_playlist_backup
        { filename := "g1.xlsx", duration := "10:00".data, playerCount := 8,
          isTeam := true, mapName := "Midship", baseGametype := "Slayer",
          hasDetails := true, redScore := 50, blueScore := 30 }
        [("g1.xlsx", "Ranked MLG 4v4")] ["g1.xlsx"] = none :=
  ⟨by decide, c9_forced_unranked_precedence _ _ _ (by decide)⟩

/-- The per-entry ledger rule keeps the source filename. -/
theorem ledgerEntry_fst (old_games : String → Option String) (b : Bool)
    (e : String × Option String) : (ledgerEntry old_games b e).1 = e.1 := by
  unfold ledgerEntry
  rcases e with ⟨f, pl⟩
  cases pl <;> cases h : old_games f <;> cases b <;> simp [h]

/-- C10 (ledger stickiness): in a run that is not a full rebuild, a file
previously recorded with a non-null playlist whose current classification
is `None` keeps the old playlist value in the rebuilt ledger. -/
theorem c10_ledger_stickiness (old_games : String → Option String)
    (all_games : List (String × Option String)) (f p : String)
    (hnd : (all_games.map Prod.fst).Nodup)
    (hmem : (f, (none : Option String)) ∈ all_games)
    (hold : old_games f = some p) :
    (buildNewGames old_games all_games false).find? (fun e => e.1 == f) =
      some (f, some p) := by
  induction all_games with
  | nil => cases hmem
  | cons e rest ih =>
    rcases List.mem_cons.mp hmem with he | hrest
    · subst he
      simp only [buildNewGames, List.map_cons, List.find?]
      have hentry : ledgerEntry old_games false (f, none) = (f, some p) := by
        simp [ledgerEntry, hold]
      rw [hentry]
      simp
    · rw [List.map_cons, List.nodup_cons] at hnd
      have hne : e.1 ≠ f := by
        have hf : f ∈ rest.map Prod.fst := List.mem_map_of_mem Prod.fst hrest
        intro hEq
        exact hnd.1 (hEq ▸ hf)
      have hnd' : (rest.map Prod.fst).Nodup := hnd.2
      simp only [buildNewGames, List.map_cons, List.find?]
      have : ((ledgerEntry old_games false e).1 == f) = false := by
        rw [ledgerEntry_fst]
        exact beq_false_of_ne hne
      rw [this]
      exact ih hnd' hrest

/-- C10 witness: concrete ledger with one previously-ranked file demoted to
unranked by the current run. -/
theorem c10_ledger_stickiness_witness :
    (buildNewGames (fun f => if f = "a.xlsx" then some "MLG 4v4" else none)
        [("a.xlsx", none), ("b.xlsx", some "Double Team")] false).find?
      (fun e => e.1 == "a.xlsx") = some ("a.xlsx", some "MLG 4v4") :=
  c10_ledger_stickiness _ _ _ _ (by decide) (by decide) (by decide)

/-- C1 (replay determinism): the full replay pipeline — provisional-identity
creation by hashing included — is a pure function of the ordered ranked
match list, the XP configuration, the resolution tables and the (fixed)
interpreter string-hash, so two runs from empty state produce identical
final per-identity per-playlist standings. -/
theorem c1_replay_determinism (cfg : XPConfig) (pyHash : String → Int)
    (resolveFor : Game → String → Option String) (rankedGames : List Game)
    (s1 s2 : List (String × (String → PlaylistStanding)))
    (h1 : s1 = runPipeline cfg pyHash resolveFor rankedGames)
    (h2 : s2 = runPipeline cfg pyHash resolveFor rankedGames) : s1 = s2 :=
  h1.trans h2.symm

/-- C1 witness: two runs of the pipeline on a concrete two-player game with
one resolvable and one provisional identity agree. -/
theorem c1_replay_determinism_witness :
    runPipeline
        { game_win := 100, game_loss := -100, win_factors := fun _ => none,
          loss_factors := fun _ => none,
          rank_thresholds := fun r => if r = 1 then some (0, 99) else none }
        (fun n => (n.length : Int))
        (fun _ n => if n = "alpha" then some "1" else none)
        [{ details := { variantName := "Team Slayer", gameType := "Slayer" },
           players := [{ name := "alpha", team := "Red", score := "5".data, score_numeric := 5 },
                       { name := "beta", team := "Blue", score := "5".data, score_numeric := 5 }],
           detailed_stats := [], playlist := some "MLG 4v4", source_file := "g.xlsx" }] =
      runPipeline
        { game_win := 100, game_loss := -100, win_factors := fun _ => none,
          loss_factors := fun _ => none,
          rank_thresholds := fun r => if r = 1 then some (0, 99) else none }
        (fun n => (n.length : Int))
        (fun _ n => if n = "alpha" then some "1" else none)
        [{ details := { variantName := "Team Slayer", gameType := "Slayer" },
           players := [{ name := "alpha", team := "Red", score := "5".data, score_numeric := 5 },
                       { name := "beta", team := "Blue", score := "5".data, score_numeric := 5 }],
           detailed_stats := [], playlist := some "MLG 4v4", source_file := "g.xlsx" }] :=
  c1_replay_determinism _ _ _ _ _ _ rfl rfl

/-- Deterministic stand-in for the `md5(json.dumps(...))` manual-override
hash (`get_manual_playlists_hash`, populate_stats.py:559-563): any function
that separates the two concrete override maps below suffices to exhibit the
missing comparison. -/
def modelManualHash (m : List (String × String)) : String :=
  String.intercalate ";" (m.map (fun e => e.1 ++ "=" ++ e.2))

/-- Stand-in for `get_manual_hash` on the forced-unranked list
(BACKUPpopulate_stats.py:758-762). -/
def modelUnrankedHash (m : List String) : String :=
  String.intercalate ";" m

/-- C3 evidence: with a previously-unranked processed file `a.xlsx` and a
manual-override map whose hash drifted (a new entry for the brand-new file
`x.xlsx`), the current `check_for_changes` does NOT request a full rebuild
even though the manual-override hash changed — the hash comparison the
claim requires is present only in the backup variant, which does escalate
on the same input. -/
theorem c3_hash_drift_not_escalated :
    modelManualHash [("x.xlsx", "MLG 4v4")] ≠ modelManualHash [] ∧
      check_for_changes modelManualHash ["a.xlsx", "x.xlsx"]
          [("x.xlsx", "MLG 4v4")]
          { games := [("a.xlsx", none)],
            manual_playlists_hash := modelManualHash [],
            manual_unranked_hash := modelUnrankedHash [] } =
        (false, ["x.xlsx"], []) ∧
      (check_for_changes_backup modelManualHash modelUnrankedHash
          ["a.xlsx", "x.xlsx"] [("x.xlsx", "MLG 4v4")] []
          { games := [("a.xlsx", none)],
            manual_playlists_hash := modelManualHash [],
            manual_unranked_hash := modelUnrankedHash [] }).1 = true := by
  refine ⟨by decide, by decide, by decide⟩

/-- `str.split` yields a singleton when the separator does not occur. -/
theorem pySplit_no_sep (sep : Char) (b : List Char) (h : sep ∉ b) :
    pySplit sep b = [b] := by
  induction b with
  | nil => rfl
  | cons c cs ih =>
    have hc : c ≠ sep := fun hEq => h (hEq ▸ List.mem_cons_self c cs)
    have hcs : sep ∉ cs := fun hm => h (List.mem_cons_of_mem c hm)
    simp [pySplit, hc, ih hcs]

/-- `str.split` peels off a separator-free head segment. -/
theorem pySplit_append (sep : Char) (a b : List Char) (ha : sep ∉ a) :
    pySplit sep (a ++ sep :: b) = a :: pySplit sep b := by
  induction a with
  | nil => simp [pySplit]
  | cons c as ih =>
    have hc : c ≠ sep := fun hEq => ha (hEq ▸ List.mem_cons_self c as)
    have has : sep ∉ as := fun hm => ha (List.mem_cons_of_mem c hm)
    have hr := ih has
    simp only [List.cons_append, pySplit, if_neg hc, List.append_eq, hr]

/-- C8 counterexample: the claim maps an ":SS" string to SS seconds, but
`time_to_seconds ":05"` is 0, not 5 — `int('')` raises inside the `try`
and the bare `except` returns 0. -/
theorem c8_colon_ss_counterexample :
    time_to_seconds (":05".data) = 0 ∧ (0 : Int) ≠ 5 :=
  ⟨by decide, by decide⟩

/-- C8 (amended): `time_to_seconds` maps an "M:SS" string with parseable
integer components to M*60+SS (so "1:05" gives exactly 65); an ":SS"
string (empty minutes field) is garbled input and yields 0; any
colon-free input that fails float parsing yields 0; missing (empty) input
yields 0.  The function is total, so no input raises. -/
theorem c8_oddball_time_parsing :
    (∀ (a b : List Char) (m k : Int),
        pyStrip (a ++ ':' :: b) = a ++ ':' :: b →
        ':' ∉ a → ':' ∉ b →
        parseIntChars a = some m → parseIntChars b = some k →
        time_to_seconds (a ++ ':' :: b) = m * 60 + k) ∧
    time_to_seconds ("1:05".data) = 65 ∧
    (∀ cs : List Char, ':' ∉ pyStrip cs → parseFloatChars (pyStrip cs) = none →
        time_to_seconds cs = 0) ∧
    time_to_seconds (":05".data) = 0 ∧
    time_to_seconds [] = 0 := by
  refine ⟨?_, by decide, ?_, by decide, by decide⟩
  · intro a b m k hstrip ha hb hm hk
    have hne : a ++ ':' :: b ≠ [] := by simp
    have hmem : ':' ∈ a ++ ':' :: b := by simp
    have hsplit : pySplit ':' (a ++ ':' :: b) = [a, b] := by
      rw [pySplit_append ':' a b ha, pySplit_no_sep ':' b hb]
    simp [time_to_seconds, hne, hstrip, hmem, hsplit, hm, hk]
  · intro cs hcolon hfloat
    by_cases hcs : cs = []
    · simp [time_to_seconds, hcs]
    · simp [time_to_seconds, hcs, hcolon, hfloat]

/-- C8 witness: the general "M:SS" clause applied to "2:30". -/
theorem c8_oddball_time_parsing_witness :
    time_to_seconds ("2".data ++ ':' :: "30".data) = 2 * 60 + 30 :=
  c8_oddball_time_parsing.1 "2".data "30".data 2 30 (by decide) (by decide)
    (by decide) (by decide) (by decide)

/-- Unfolding `lookupAssoc` over a cons cell. -/
theorem lookupAssoc_nil {α : Type} (u : String) :
    lookupAssoc ([] : List (String × α)) u = none := rfl

theorem lookupAssoc_cons {α : Type} (x : String × α) (xs : List (String × α)) (u : String) :
    lookupAssoc (x :: xs) u = if x.1 = u then some x.2 else lookupAssoc xs u := by
  by_cases h : x.1 = u
  · have hb : (x.1 == u) = true := beq_iff_eq.mpr h
    simp [lookupAssoc, List.find?, hb, h]
  · have hb : (x.1 == u) = false := beq_eq_false_iff_ne.mpr h
    simp [lookupAssoc, List.find?, hb, h]

/-- How one `upsertGroup` step changes a group lookup. -/
theorem lookupAssoc_upsertGroup (user_id n u : String)
    (l : List (String × List String)) :
    lookupAssoc (upsertGroup user_id n l) u =
      if u = user_id then some (((lookupAssoc l user_id).getD []) ++ [n])
      else lookupAssoc l u := by
  induction l with
  | nil =>
    by_cases h : u = user_id
    · simp [upsertGroup, lookupAssoc_cons, lookupAssoc_nil, h]
    · have hne : ¬ user_id = u := fun hEq => h hEq.symm
      simp [upsertGroup, lookupAssoc_cons, lookupAssoc_nil, h, hne]
  | cons e rest ih =>
    by_cases he : e.1 = user_id
    · have hup : upsertGroup user_id n (e :: rest) = (e.1, e.2 ++ [n]) :: rest := by
        simp [upsertGroup, he]
      by_cases hu : u = user_id
      · have h1 : e.1 = u := he.trans hu.symm
        simp [hup, lookupAssoc_cons, h1, hu, he]
      · have hne : ¬ e.1 = u := fun hEq => hu (hEq.symm.trans he)
        simp [hup, lookupAssoc_cons, hne, hu]
    · have hup : upsertGroup user_id n (e :: rest) = e :: upsertGroup user_id n rest := by
        simp [upsertGroup, he]
      by_cases hu : u = user_id
      · subst hu
        simp [hup, lookupAssoc_cons, he, ih]
      · by_cases hu2 : e.1 = u
        · simp [hup, lookupAssoc_cons, hu2, hu]
        · simp [hup, lookupAssoc_cons, hu2, hu, ih]

/-- The alias group accumulated for a user id is exactly the subsequence of
names resolving to it. -/
theorem user_groups_getD (f : String → String) (names : List String) :
    ∀ (acc : List (String × List String)) (u : String),
      (lookupAssoc (names.foldl (fun acc n => upsertGroup (f n) n acc) acc) u).getD [] =
        (lookupAssoc acc u).getD [] ++ names.filter (fun n => f n == u) := by
  induction names with
  | nil =>
    intro acc u
    simp
  | cons n rest ih =>
    intro acc u
    rw [List.foldl_cons, ih, lookupAssoc_upsertGroup]
    by_cases h : u = f n
    · subst h
      simp [List.filter_cons]
    · have : (f n == u) = false := by
        simp [beq_iff_eq]
        exact fun hEq => h hEq.symm
      simp [h, List.filter_cons, this]

/-- C7 (alias non-duplication): the alias group consolidated for a user id
is exactly the (deduplicated) list of names resolving to that id, and the
consolidated per-playlist XP, wins, losses and games are the sums of the
per-alias accumulators — each alias contributing exactly once. -/
theorem c7_alias_non_duplication (cfg : XPConfig) (st : StandState)
    (playerToId : String → String) (names : List String) (u : String)
    (g : List String) (playlist : String)
    (_hnd : names.Nodup)
    (hg : lookupAssoc (user_id_to_names playerToId names) u = some g) :
    g = names.filter (fun n => playerToId n == u) ∧
    (consolidatePlaylist cfg st g playlist).xp =
      ((names.filter (fun n => playerToId n == u)).map
        (fun n => ((st n playlist).getD initStanding).xp)).sum ∧
    (consolidatePlaylist cfg st g playlist).wins =
      ((names.filter (fun n => playerToId n == u)).map
        (fun n => ((st n playlist).getD initStanding).wins)).sum ∧
    (consolidatePlaylist cfg st g playlist).losses =
      ((names.filter (fun n => playerToId n == u)).map
        (fun n => ((st n playlist).getD initStanding).losses)).sum ∧
    (consolidatePlaylist cfg st g playlist).games =
      ((names.filter (fun n => playerToId n == u)).map
        (fun n => ((st n playlist).getD initStanding).games)).sum := by
  have hG : g = names.filter (fun n => playerToId n == u) := by
    have h := user_groups_getD playerToId names [] u
    rw [show names.foldl (fun acc n => upsertGroup (playerToId n) n acc) [] =
          user_id_to_names playerToId names from rfl, hg] at h
    simpa using h
  refine ⟨hG, ?_, ?_, ?_, ?_⟩ <;> rw [hG] <;> rfl

/-- Concrete alias map for the C7 witness: "A" and "B" resolve to user "X",
"C" to user "Y". -/
def c7IdMap : String → String := fun n => if n = "C" then "Y" else "X"

/-- Concrete replay state for the C7 witness. -/
def c7State : StandState := fun n playlist =>
  if playlist = "MLG 4v4" then
    if n = "A" then some { xp := 10, rank := 1, highest_rank := 2, wins := 1, losses := 0, games := 2 }
    else if n = "B" then some { xp := 20, rank := 1, highest_rank := 1, wins := 2, losses := 1, games := 3 }
    else none
  else none

/-- Concrete configuration for witnesses that never exercise the XP-factor
arithmetic. -/
def simpleConfig : XPConfig :=
  { game_win := 100, game_loss := -100, win_factors := fun _ => none,
    loss_factors := fun _ => none,
    rank_thresholds := fun r => if r = 1 then some (0, 99) else none }

/-- C7 witness: consolidating user "X" over aliases "A" and "B". -/
theorem c7_alias_non_duplication_witness :
    (consolidatePlaylist simpleConfig c7State ["A", "B"] "MLG 4v4").xp =
      (((["A", "B", "C"].filter (fun n => c7IdMap n == "X"))).map
        (fun n => ((c7State n "MLG 4v4").getD initStanding).xp)).sum :=
  (c7_alias_non_duplication simpleConfig c7State c7IdMap ["A", "B", "C"] "X"
    ["A", "B"] "MLG 4v4" (by decide) (by decide)).2.1

/-- `stepPlayer` leaves every other player's standings untouched. -/
theorem stepPlayer_other (cfg : XPConfig) (w lo : List String) (playlist : String)
    (st : StandState) (p : PlayerRow) (n pl2 : String) (h : n ≠ p.name) :
    stepPlayer cfg w lo playlist st p n pl2 = st n pl2 := by
  by_cases hd : is_dedicated_server p.name = true
  · simp only [stepPlayer, if_pos hd]
  · simp only [stepPlayer, if_neg hd]
    exact if_neg (fun hc => h hc.1)

/-- Folding `stepPlayer` over rows carrying other names leaves a name's
standings untouched. -/
theorem foldl_stepPlayer_not_mem (cfg : XPConfig) (w lo : List String) (playlist : String) :
    ∀ (l : List PlayerRow) (st : StandState) (n pl2 : String),
      (∀ q ∈ l, q.name ≠ n) →
      (l.foldl (stepPlayer cfg w lo playlist) st) n pl2 = st n pl2 := by
  intro l
  induction l with
  | nil =>
    intro st n pl2 _
    rfl
  | cons q rest ih =>
    intro st n pl2 hq
    rw [List.foldl_cons,
      ih (stepPlayer cfg w lo playlist st q) n pl2
        (fun r hr => hq r (List.mem_cons_of_mem q hr))]
    exact stepPlayer_other cfg w lo playlist st q n pl2
      (fun hEq => hq q (List.mem_cons_self q rest) hEq.symm)

/-- Effect of one tie step (empty winners and losers) on the stepped
player's own standing. -/
theorem stepPlayer_tie (cfg : XPConfig) (playlist : String) (st : StandState)
    (p : PlayerRow) (hded : is_dedicated_server p.name = false) :
    stepPlayer cfg [] [] playlist st p p.name playlist =
      some { (st p.name playlist).getD initStanding with
             games := ((st p.name playlist).getD initStanding).games + 1,
             rank := calculate_rank ((st p.name playlist).getD initStanding).xp
               cfg.rank_thresholds,
             highest_rank := max ((st p.name playlist).getD initStanding).highest_rank
               (calculate_rank ((st p.name playlist).getD initStanding).xp
                 cfg.rank_thresholds) } := by
  simp [stepPlayer, hded]

/-- C4 (tie neutrality): a two-team match with equal computed team scores
yields empty winners and losers, and replaying it increments each
non-dedicated participant's games-played count for the match's playlist by
exactly 1 while leaving XP, wins and losses unchanged. -/
theorem c4_tie_neutrality (cfg : XPConfig) (st : StandState) (g : Game)
    (playlist : String) (p : PlayerRow)
    (hpl : g.playlist = some playlist)
    (hboth : teamMembers g "Red" ≠ [] ∧ teamMembers g "Blue" ≠ [])
    (heq : engineTeamScore g "Red" = engineTeamScore g "Blue")
    (hnd : (g.players.map (fun q => q.name)).Nodup)
    (hp : p ∈ g.players) (hded : is_dedicated_server p.name = false) :
    determine_winners_losers g = ([], []) ∧
    (∃ s, replayGame cfg st g p.name playlist = some s ∧
      s.xp = ((st p.name playlist).getD initStanding).xp ∧
      s.wins = ((st p.name playlist).getD initStanding).wins ∧
      s.losses = ((st p.name playlist).getD initStanding).losses ∧
      s.games = ((st p.name playlist).getD initStanding).games + 1) := by
  have hdwl : determine_winners_losers g = ([], []) := by
    simp [determine_winners_losers, hboth.1, hboth.2, heq]
  refine ⟨hdwl, ?_⟩
  obtain ⟨l1, l2, hsplit⟩ := List.append_of_mem hp
  rw [hsplit] at hnd
  rw [List.map_append, List.map_cons, List.nodup_append] at hnd
  obtain ⟨hnd1, hnd2, hdisj⟩ := hnd
  have hpn2 : p.name ∉ l2.map (fun q => q.name) := (List.nodup_cons.mp hnd2).1
  have hpn1 : p.name ∉ l1.map (fun q => q.name) :=
    fun ha => hdisj ha (List.mem_cons_self _ _)
  have hl1 : ∀ q ∈ l1, q.name ≠ p.name :=
    fun q hq hEq => hpn1 (hEq ▸ List.mem_map_of_mem (fun r => r.name) hq)
  have hl2 : ∀ q ∈ l2, q.name ≠ p.name :=
    fun q hq hEq => hpn2 (hEq ▸ List.mem_map_of_mem (fun r => r.name) hq)
  have hmain : replayGame cfg st g p.name playlist =
      stepPlayer cfg [] [] playlist (l1.foldl (stepPlayer cfg [] [] playlist) st) p
        p.name playlist := by
    simp only [replayGame, hpl, hdwl]
    rw [hsplit, List.foldl_append, List.foldl_cons]
    exact foldl_stepPlayer_not_mem cfg [] [] playlist l2 _ p.name playlist hl2
  have hst1 : (l1.foldl (stepPlayer cfg [] [] playlist) st) p.name playlist =
      st p.name playlist :=
    foldl_stepPlayer_not_mem cfg [] [] playlist l1 st p.name playlist hl1
  rw [hmain, stepPlayer_tie cfg playlist _ p hded, hst1]
  exact ⟨_, rfl, rfl, rfl, rfl, rfl⟩

/-- A concrete tie game used by witnesses. -/
def tieGame : Game :=
  { details := { variantName := "Team Slayer", gameType := "Slayer" },
    players := [{ name := "alpha", team := "Red", score := "5".data, score_numeric := 5 },
                { name := "beta", team := "Blue", score := "5".data, score_numeric := 5 }],
    detailed_stats := [], playlist := some "MLG 4v4", source_file := "g1.xlsx" }

/-- C4 witness: the concrete tie game, stepped for player "alpha" from the
empty state. -/
theorem c4_tie_neutrality_witness :
    determine_winners_losers tieGame = ([], []) ∧
    ((replayGame simpleConfig emptyState tieGame "alpha" "MLG 4v4").getD
        initStanding).games =
      ((emptyState "alpha" "MLG 4v4").getD initStanding).games + 1 ∧
    ((replayGame simpleConfig emptyState tieGame "alpha" "MLG 4v4").getD
        initStanding).xp =
      ((emptyState "alpha" "MLG 4v4").getD initStanding).xp := by
  obtain ⟨h1, s, hs, hxp, _hw, _hl, hg⟩ :=
    c4_tie_neutrality simpleConfig emptyState tieGame "MLG 4v4"
      { name := "alpha", team := "Red", score := "5".data, score_numeric := 5 }
      rfl ⟨by decide, by decide⟩ (by decide) (by decide) (by decide) (by decide)
  refine ⟨h1, ?_, ?_⟩ <;> rw [hs] <;> simp only [Option.getD]
  · exact hg
  · exact hxp

/-- XP nonnegativity invariant over a replay state. -/
def XPNonneg (st : StandState) : Prop :=
  ∀ n playlist s, st n playlist = some s → 0 ≤ s.xp

/-- Python `int(...)` truncation preserves nonnegativity. -/
theorem pyTrunc_nonneg (q : ℚ) (h : 0 ≤ q) : 0 ≤ pyTrunc q :=
  Int.tdiv_nonneg (Rat.num_nonneg.mpr h) (Int.ofNat_nonneg q.den)

/-- Win factors drawn from a nonnegative table are nonnegative. -/
theorem get_win_factor_nonneg (r : Nat) (wfs : Nat → Option ℚ)
    (hw : ∀ n q, wfs n = some q → 0 ≤ q) : 0 ≤ get_win_factor r wfs := by
  unfold get_win_factor
  split
  · norm_num
  · cases hq : wfs r with
    | none => simp [hq]
    | some q =>
      simp only [hq, Option.getD]
      exact hw r q hq

/-- One replay step preserves the XP floor. -/
theorem stepPlayer_xp_nonneg (cfg : XPConfig) (w lo : List String) (playlist : String)
    (st : StandState) (p : PlayerRow)
    (hwin : 0 ≤ cfg.game_win)
    (hwf : ∀ n q, cfg.win_factors n = some q → 0 ≤ q)
    (hst : XPNonneg st) : XPNonneg (stepPlayer cfg w lo playlist st p) := by
  intro n pl2 s hs
  by_cases hd : is_dedicated_server p.name = true
  · simp only [stepPlayer, if_pos hd] at hs
    exact hst _ _ _ hs
  · simp only [stepPlayer, if_neg hd] at hs
    by_cases hnp : n = p.name ∧ pl2 = playlist
    · rw [if_pos hnp] at hs
      have hcur : 0 ≤ ((st p.name playlist).getD initStanding).xp := by
        cases hc2 : st p.name playlist with
        | none => simp [initStanding]
        | some s0 =>
          simpa using hst _ _ _ hc2
      injection hs with hs'
      subst hs'
      by_cases hw1 : p.name ∈ w
      · simp only [if_pos hw1]
        exact add_nonneg hcur
          (pyTrunc_nonneg _
            (mul_nonneg (by exact_mod_cast hwin)
              (get_win_factor_nonneg _ _ hwf)))
      · by_cases hl1 : p.name ∈ lo
        · simp only [if_neg hw1, if_pos hl1]
          split
          · exact le_refl 0
          · rename_i hnlt
            exact le_of_not_lt hnlt
        · simp only [if_neg hw1, if_neg hl1]
          exact hcur
    · rw [if_neg hnp] at hs
      exact hst _ _ _ hs

/-- Folding replay steps over a game's rows preserves the XP floor. -/
theorem foldl_stepPlayer_xp_nonneg (cfg : XPConfig) (w lo : List String)
    (playlist : String)
    (hwin : 0 ≤ cfg.game_win)
    (hwf : ∀ n q, cfg.win_factors n = some q → 0 ≤ q) :
    ∀ (l : List PlayerRow) (st : StandState), XPNonneg st →
      XPNonneg (l.foldl (stepPlayer cfg w lo playlist) st) := by
  intro l
  induction l with
  | nil => intro st hst; exact hst
  | cons q rest ih =>
    intro st hst
    rw [List.foldl_cons]
    exact ih _ (stepPlayer_xp_nonneg cfg w lo playlist st q hwin hwf hst)

/-- C2 (XP floor): replaying any list of ranked matches from a state whose
XP values are all nonnegative (in particular, the empty state) keeps every
player's per-playlist XP nonnegative — a loss that would push XP negative
clamps it to 0, and wins add a nonnegative delta as long as the configured
base win XP and win-factor table are nonnegative. -/
theorem c2_xp_floor (cfg : XPConfig)
    (hwin : 0 ≤ cfg.game_win)
    (hwf : ∀ n q, cfg.win_factors n = some q → 0 ≤ q)
    (games : List Game) (st : StandState) (hst : XPNonneg st) :
    XPNonneg (replayGames cfg games st) := by
  induction games generalizing st with
  | nil => exact hst
  | cons g rest ih =>
    rw [replayGames, List.foldl_cons]
    have hg : XPNonneg (replayGame cfg st g) := by
      unfold replayGame
      cases hpl : g.playlist with
      | none => exact hst
      | some pl => exact foldl_stepPlayer_xp_nonneg cfg _ _ pl hwin hwf _ st hst
    exact ih _ hg

/-- C2 witness: the XP floor instantiated at the concrete tie game replayed
from the empty state. -/
theorem c2_xp_floor_witness :
    0 ≤ ((replayGames simpleConfig [tieGame] emptyState "alpha" "MLG 4v4").getD
      initStanding).xp := by
  have h := c2_xp_floor simpleConfig (by decide)
    (fun n q hq => by simp [simpleConfig] at hq) [tieGame] emptyState
    (fun n pl s hs => by simp [emptyState] at hs)
  cases hev : replayGames simpleConfig [tieGame] emptyState "alpha" "MLG 4v4" with
  | none => simp [initStanding]
  | some s => simpa using h "alpha" "MLG 4v4" s hev

/-- C5 fixture: a non-CTF, non-Oddball game that Red wins 5-3. -/
def c5Game : Game :=
  { details := { variantName := "Team Slayer", gameType := "Slayer" },
    players := [{ name := "alpha", team := "Red", score := "5".data, score_numeric := 5 },
                { name := "beta", team := "Blue", score := "3".data, score_numeric := 3 }],
    detailed_stats := [], playlist := some "MLG 4v4", source_file := "g2.xlsx" }

/-- C5 fixture: "alpha" resolves to user "1". -/
def c5PlayerToId : String → Option String :=
  fun n => if n = "alpha" then some "1" else none

/-- C5 fixture: user "1" has Discord display name "AlphaDiscord". -/
def c5DiscordName : String → Option String :=
  fun u => if u = "1" then some "AlphaDiscord" else none

/-- C5 counterexample: Red strictly outscores Blue (by both the outcome
engine and the match-log scores) and the outcome engine names "alpha" the
winner, yet the recorded winner field is "Blue" — the winner membership
test compares raw winner names against DISPLAY names, and "alpha" displays
as "AlphaDiscord". -/
theorem c5_winner_field_counterexample :
    engineTeamScore c5Game "Red" > engineTeamScore c5Game "Blue" ∧
    logTeamScore c5Game "Red" > logTeamScore c5Game "Blue" ∧
    (determine_winners_losers c5Game).1 = ["alpha"] ∧
    winner_team c5Game (get_display_name c5PlayerToId c5DiscordName) = "Blue" :=
  ⟨by decide, by decide, by decide, by decide⟩

/-- The match-log team score agrees with the outcome engine's team score
whenever the game is not Oddball-scored (the engine applies the CTF special
case but not the Oddball one). -/
theorem logTeamScore_eq_engine (g : Game) (team : String)
    (h : is_oddball g = false ∨ (is_ctf g = true ∧ g.detailed_stats ≠ [])) :
    logTeamScore g team = engineTeamScore g team := by
  unfold logTeamScore engineTeamScore enginePlayerScore
  by_cases hc : is_ctf g = true ∧ g.detailed_stats ≠ []
  · simp [hc]
  · rcases h with hodd | hc2
    · simp [hc, hodd]
    · exact absurd hc2 hc

/-- No name plays on both teams of a game with duplicate-free player
names. -/
theorem red_blue_disjoint (g : Game)
    (hnd : (g.players.map (fun p => p.name)).Nodup) :
    ∀ x ∈ teamMembers g "Blue", x ∉ teamMembers g "Red" := by
  intro x hxB hxR
  unfold teamMembers at hxB hxR
  obtain ⟨p1, hp1, hp1n⟩ := List.mem_map.mp hxR
  obtain ⟨p2, hp2, hp2n⟩ := List.mem_map.mp hxB
  have h1 := List.mem_filter.mp hp1
  have h2 := List.mem_filter.mp hp2
  have hpe : p1 = p2 :=
    List.inj_on_of_nodup_map hnd h1.1 h2.1 (hp1n.trans hp2n.symm)
  have hr : p1.team = "Red" := by simpa using h1.2
  have hb : p2.team = "Blue" := by simpa using h2.2
  rw [hpe, hb] at hr
  exact absurd hr (by decide)

/-- C5 (amended): the recorded winner field is "Tie" exactly when the
outcome engine returns no winners (teams missing or scores equal), and —
provided every participant's display name equals their raw in-game name —
it is "Red" exactly when the engine's red score strictly exceeds blue and
"Blue" exactly when blue strictly exceeds red; moreover the logged team
scores agree with the engine's scores except for Oddball-scored games,
where only the log applies the held-time conversion. -/
theorem c5_winner_field (g : Game) (display : String → String)
    (hdisp : ∀ p ∈ g.players, display p.name = p.name)
    (hnd : (g.players.map (fun p => p.name)).Nodup) :
    (winner_team g display = "Red" ↔
      (teamMembers g "Red" ≠ [] ∧ teamMembers g "Blue" ≠ [] ∧
        engineTeamScore g "Red" > engineTeamScore g "Blue")) ∧
    (winner_team g display = "Blue" ↔
      (teamMembers g "Red" ≠ [] ∧ teamMembers g "Blue" ≠ [] ∧
        engineTeamScore g "Blue" > engineTeamScore g "Red")) ∧
    (winner_team g display = "Tie" ↔
      (¬(teamMembers g "Red" ≠ [] ∧ teamMembers g "Blue" ≠ []) ∨
        engineTeamScore g "Red" = engineTeamScore g "Blue")) ∧
    ((is_oddball g = false ∨ (is_ctf g = true ∧ g.detailed_stats ≠ [])) →
      logTeamScore g "Red" = engineTeamScore g "Red" ∧
      logTeamScore g "Blue" = engineTeamScore g "Blue") := by
  have hred_team : (g.players.filter (fun p => p.team == "Red")).map
      (fun p => display p.name) = teamMembers g "Red" := by
    unfold teamMembers
    exact List.map_congr_left (fun p hp => hdisp p (List.mem_of_mem_filter hp))
  have hlog : (is_oddball g = false ∨ (is_ctf g = true ∧ g.detailed_stats ≠ [])) →
      logTeamScore g "Red" = engineTeamScore g "Red" ∧
      logTeamScore g "Blue" = engineTeamScore g "Blue" :=
    fun h => ⟨logTeamScore_eq_engine g "Red" h, logTeamScore_eq_engine g "Blue" h⟩
  by_cases hboth : teamMembers g "Red" ≠ [] ∧ teamMembers g "Blue" ≠ []
  · rcases lt_trichotomy (engineTeamScore g "Red") (engineTeamScore g "Blue") with
      hlt | heqs | hgt
    · have hdwl : determine_winners_losers g =
          (teamMembers g "Blue", teamMembers g "Red") := by
        simp [determine_winners_losers, hboth.1, hboth.2, ne_of_lt hlt, lt_asymm hlt]
      have hany : (teamMembers g "Blue").any
          (fun p => (teamMembers g "Red").contains p) = false := by
        rw [List.any_eq_false]
        intro x hx hcont
        exact red_blue_disjoint g hnd x hx (by simpa using hcont)
      have hwt : winner_team g display = "Blue" := by
        simp only [winner_team, hdwl, hred_team, hany]
        simp [hboth.2]
      refine ⟨?_, ?_, ?_, hlog⟩
      · rw [hwt]
        exact iff_of_false (by decide) (fun h => lt_asymm hlt h.2.2)
      · rw [hwt]
        exact iff_of_true rfl ⟨hboth.1, hboth.2, hlt⟩
      · rw [hwt]
        exact iff_of_false (by decide)
          (fun h => h.elim (fun hnb => hnb hboth) (fun heq2 => ne_of_lt hlt heq2))
    · have hdwl : determine_winners_losers g = ([], []) := by
        simp [determine_winners_losers, hboth.1, hboth.2, heqs]
      have hwt : winner_team g display = "Tie" := by
        simp [winner_team, hdwl]
      refine ⟨?_, ?_, ?_, hlog⟩
      · rw [hwt]
        exact iff_of_false (by decide) (fun h => ne_of_gt h.2.2 heqs)
      · rw [hwt]
        exact iff_of_false (by decide) (fun h => ne_of_gt h.2.2 heqs.symm)
      · rw [hwt]
        exact iff_of_true rfl (Or.inr heqs)
    · have hdwl : determine_winners_losers g =
          (teamMembers g "Red", teamMembers g "Blue") := by
        simp [determine_winners_losers, hboth.1, hboth.2, ne_of_gt hgt, hgt]
      have hany : (teamMembers g "Red").any
          (fun p => (teamMembers g "Red").contains p) = true := by
        cases hR : teamMembers g "Red" with
        | nil => exact absurd hR hboth.1
        | cons a t => simp
      have hwt : winner_team g display = "Red" := by
        simp only [winner_team, hdwl, hred_team, hany]
        rfl
      refine ⟨?_, ?_, ?_, hlog⟩
      · rw [hwt]
        exact iff_of_true rfl ⟨hboth.1, hboth.2, hgt⟩
      · rw [hwt]
        exact iff_of_false (by decide) (fun h => lt_asymm hgt h.2.2)
      · rw [hwt]
        exact iff_of_false (by decide)
          (fun h => h.elim (fun hnb => hnb hboth) (fun heq2 => ne_of_gt hgt heq2))
  · have hdwl : determine_winners_losers g = ([], []) := by
      simp only [determine_winners_losers, if_neg hboth]
    have hwt : winner_team g display = "Tie" := by
      simp [winner_team, hdwl]
    refine ⟨?_, ?_, ?_, hlog⟩
    · rw [hwt]
      exact iff_of_false (by decide) (fun h => hboth ⟨h.1, h.2.1⟩)
    · rw [hwt]
      exact iff_of_false (by decide) (fun h => hboth ⟨h.1, h.2.1⟩)
    · rw [hwt]
      exact iff_of_true rfl (Or.inl hboth)

/-- C5 witness: under an identity display map, the winner field of the
concrete 5-3 game is "Red". -/
theorem c5_winner_field_witness :
    winner_team c5Game (fun n => n) = "Red" :=
  (c5_winner_field c5Game (fun n => n) (fun p _ => rfl) (by decide)).1.mpr
    ⟨by decide, by decide, by decide⟩

/-- A rank qualifies for XP `xp` when its threshold band contains it. -/
def RankBand (t : Nat → Option (Int × Int)) (xp : Int) (r : Nat) : Prop :=
  ∃ lo hi, t r = some (lo, hi) ∧ lo ≤ xp ∧ xp ≤ hi

/-- The rank scan never returns below the default tier 1. -/
theorem calcRankAux_ge_one (xp : Int) (t : Nat → Option (Int × Int)) :
    ∀ n, 1 ≤ calcRankAux xp t n := by
  intro n
  induction n with
  | zero => exact le_refl 1
  | succ m ih =>
    simp only [calcRankAux]
    cases h : t (m + 1) with
    | none => exact ih
    | some b =>
      rcases b with ⟨lo, hi⟩
      dsimp only
      split
      · omega
      · exact ih

/-- The rank scan returns the default 1 or a qualifying rank within range. -/
theorem calcRankAux_band (xp : Int) (t : Nat → Option (Int × Int)) :
    ∀ n, calcRankAux xp t n = 1 ∨
      (RankBand t xp (calcRankAux xp t n) ∧ calcRankAux xp t n ≤ n) := by
  intro n
  induction n with
  | zero => exact Or.inl rfl
  | succ m ih =>
    simp only [calcRankAux]
    cases h : t (m + 1) with
    | none =>
      rcases ih with h1 | ⟨hb, hle⟩
      · exact Or.inl h1
      · exact Or.inr ⟨hb, Nat.le_succ_of_le hle⟩
    | some b =>
      rcases b with ⟨lo, hi⟩
      dsimp only
      split
      · rename_i hc
        exact Or.inr ⟨⟨lo, hi, h, hc.1, hc.2⟩, le_refl _⟩
      · rcases ih with h1 | ⟨hb, hle⟩
        · exact Or.inl h1
        · exact Or.inr ⟨hb, Nat.le_succ_of_le hle⟩

/-- The rank scan reaches at least any qualifying rank in range (the
"highest tier whose band contains the XP" characterization). -/
theorem calcRankAux_ge_of_band (xp : Int) (t : Nat → Option (Int × Int)) :
    ∀ n r, 1 ≤ r → r ≤ n → RankBand t xp r → r ≤ calcRankAux xp t n := by
  intro n
  induction n with
  | zero =>
    intro r h1 h2 _
    omega
  | succ m ih =>
    intro r h1 h2 hband
    simp only [calcRankAux]
    cases h : t (m + 1) with
    | none =>
      have hr : r ≤ m := by
        rcases Nat.lt_or_ge r (m + 1) with hlt | hge
        · omega
        · obtain ⟨lo2, hi2, ht, _, _⟩ := hband
          have hrm : r = m + 1 := by omega
          rw [hrm, h] at ht
          cases ht
      exact ih r h1 hr hband
    | some b =>
      rcases b with ⟨lo, hi⟩
      dsimp only
      by_cases hc : lo ≤ xp ∧ xp ≤ hi
      · rw [if_pos hc]
        omega
      · rw [if_neg hc]
        have hr : r ≤ m := by
          rcases Nat.lt_or_ge r (m + 1) with hlt | hge
          · omega
          · have hrm : r = m + 1 := by omega
            obtain ⟨lo2, hi2, ht, hx1, hx2⟩ := hband
            rw [hrm, h] at ht
            have hph : (lo, hi) = (lo2, hi2) := by
              injection ht with hph2
            rw [Prod.mk.injEq] at hph
            exact absurd ⟨by rw [hph.1]; exact hx1, by rw [hph.2]; exact hx2⟩ hc
        exact ih r h1 hr hband

/-- C6 (rank monotonicity): for a threshold table defined on ranks 1..50
with monotone band tops, contiguous bands, and both XP values inside the
covered range, `calculate_rank` is non-decreasing; moreover the lookup
returns at least every rank whose band contains the XP (i.e. the highest
qualifying tier) and returns either the default tier 1 or a qualifying
tier. -/
theorem c6_rank_monotonicity (t : Nat → Option (Int × Int)) (lo hi : Nat → Int)
    (hT : ∀ r, 1 ≤ r → r ≤ 50 → t r = some (lo r, hi r))
    (hhi : ∀ r s, 1 ≤ r → r ≤ s → s ≤ 50 → hi r ≤ hi s)
    (hcont : ∀ r, 1 ≤ r → r ≤ 49 → lo (r + 1) ≤ hi r + 1)
    (a b : Int) (hab : a ≤ b) (_ha : lo 1 ≤ a) (hb : b ≤ hi 50) :
    calculate_rank a t ≤ calculate_rank b t ∧
    (∀ r, 1 ≤ r → r ≤ 50 → RankBand t b r → r ≤ calculate_rank b t) ∧
    (calculate_rank b t = 1 ∨ RankBand t b (calculate_rank b t)) := by
  refine ⟨?_, fun r h1 h2 hbr => calcRankAux_ge_of_band b t 50 r h1 h2 hbr, ?_⟩
  · rcases calcRankAux_band a t 50 with h1 | ⟨hband, hle⟩
    · rw [show calculate_rank a t = calcRankAux a t 50 from rfl, h1]
      exact calcRankAux_ge_one b t 50
    · have hra1 : 1 ≤ calcRankAux a t 50 := calcRankAux_ge_one a t 50
      obtain ⟨lo2, hi2, ht, hx1, hx2⟩ := hband
      have htT : t (calcRankAux a t 50) = some (lo (calcRankAux a t 50), hi (calcRankAux a t 50)) :=
        hT _ hra1 hle
      have hph : (lo2, hi2) = (lo (calcRankAux a t 50), hi (calcRankAux a t 50)) := by
        injection ht.symm.trans htT with hph2
      rw [Prod.mk.injEq] at hph
      have hloa : lo (calcRankAux a t 50) ≤ a := by
        rw [← hph.1]
        exact hx1
      by_cases hble : b ≤ hi (calcRankAux a t 50)
      · exact calcRankAux_ge_of_band b t 50 _ hra1 hle
          ⟨_, _, htT, le_trans hloa hab, hble⟩
      · push_neg at hble
        show calcRankAux a t 50 ≤ calcRankAux b t 50
        have hP : ∃ s, 1 ≤ s ∧ b ≤ hi s := ⟨50, by omega, hb⟩
        have hPr : 1 ≤ Nat.find hP ∧ b ≤ hi (Nat.find hP) := Nat.find_spec hP
        have hr50 : Nat.find hP ≤ 50 := Nat.find_min' hP ⟨by omega, hb⟩
        have hralt : calcRankAux a t 50 < Nat.find hP := by
          by_contra hcon
          push_neg at hcon
          have := hhi (Nat.find hP) (calcRankAux a t 50) hPr.1 hcon hle
          have hbf := hPr.2
          omega
        have hlor : lo (Nat.find hP) ≤ b := by
          have h1m : 1 ≤ Nat.find hP - 1 := by omega
          have hmin : ¬(1 ≤ Nat.find hP - 1 ∧ b ≤ hi (Nat.find hP - 1)) :=
            Nat.find_min hP (by omega)
          have hlt2 : hi (Nat.find hP - 1) < b := by
            rcases lt_or_ge (hi (Nat.find hP - 1)) b with h | h
            · exact h
            · exact absurd ⟨h1m, h⟩ hmin
          have hco := hcont (Nat.find hP - 1) h1m (by omega)
          have hstep : Nat.find hP - 1 + 1 = Nat.find hP := by omega
          rw [hstep] at hco
          omega
        have hge := calcRankAux_ge_of_band b t 50 (Nat.find hP) (by omega) hr50
          ⟨_, _, hT (Nat.find hP) (by omega) hr50, hlor, hPr.2⟩
        omega
  · rcases calcRankAux_band b t 50 with h | ⟨hb2, _⟩
    · exact Or.inl h
    · exact Or.inr hb2

/-- C6 witness table: band of rank r is [100(r-1), 100r-1]. -/
def c6Lo : Nat → Int := fun r => 100 * ((r : Int) - 1)

/-- C6 witness table band tops. -/
def c6Hi : Nat → Int := fun r => 100 * (r : Int) - 1

/-- C6 witness threshold table on ranks 1..50. -/
def c6Table : Nat → Option (Int × Int) :=
  fun r => if 1 ≤ r ∧ r ≤ 50 then some (c6Lo r, c6Hi r) else none

/-- C6 witness: monotonicity at XP 5 vs 250 under the concrete table. -/
theorem c6_rank_monotonicity_witness :
    calculate_rank 5 c6Table ≤ calculate_rank 250 c6Table :=
  (c6_rank_monotonicity c6Table c6Lo c6Hi
    (fun r h1 h2 => by simp [c6Table, h1, h2])
    (fun r s h1 hrs h50 => by simp only [c6Hi]; omega)
    (fun r h1 h49 => by simp only [c6Lo, c6Hi]; push_cast; omega)
    5 250 (by omega) (by norm_num [c6Lo]) (by norm_num [c6Hi])).1

example : time_to_seconds ("1:05".data) = 65 := by decide
example : time_to_seconds (":05".data) = 0 := by decide
example : time_to_seconds ("72".data) = 72 := by rfl
example : time_to_seconds ("garbage".data) = 0 := by decide
example : parse_duration_seconds ("2:00".data) = 120 := by decide
example : is_dedicated_server "StatsDedi" = true := by decide
example : is_dedicated_server "alpha" = false := by decide
example : is_valid_mlg_combo "Lockout" "Slayer" = true := by decide
example : is_valid_mlg_combo "Lockout" "Territories" = false := by decide
example : normalize_playlist_name "Ranked MLG 4v4" = some "MLG 4v4" := by decide

end CarnageReport
